import Mathlib

/-!
Verification of the batched, failure-tolerant telemetry-shipping worker
(the Orion log worker and handler of this repository's logging subsystem).

The worker implementation itself is not present under `src/`; only its test
suite (`src/tests/test_logging.py`) is.  Every definition below whose doc
comment starts with `Modelled from the spec:` is therefore a faithful
translation of the specification's description of the missing component
(spec.md, sections 3 through 7), with the concrete message strings taken from
the assertions of the test suite.
-/

namespace PrefectLogging

/-- Modelled from the spec: a Record (spec §3), the immutable structured
telemetry unit produced by `prepare`.  A constructed Record always carries a
flow-run id; the task-run id is optional.  `size` models the serialized size
in bytes of the record (the code measures it with `sys.getsizeof` on the
serialized dict; serialization itself is out of scope per spec §1). -/
structure LogRec where
  flowRunId : Nat
  taskRunId : Option Nat
  name : String
  level : Nat
  message : String
  size : Nat
deriving DecidableEq

/-- Modelled from the spec: the data carried by one logging call before a
Record is constructed (logger name, level, message, explicit or ambient run
identifiers, and the serialized size the record would have).  The flow-run id
is optional here: the invariant of spec §3 is exactly that a Record is never
constructed from an emission lacking one. -/
structure Emission where
  flowRunId : Option Nat
  taskRunId : Option Nat
  name : String
  level : Nat
  message : String
  size : Nat
deriving DecidableEq

/-- The warning issued when logs are emitted without a flow run id
(test: `attempted to send logs .* without a flow run id`). -/
def flowRunWarning (name : String) : String :=
  "Logger " ++ name ++ " attempted to send logs to Orion " ++
    "without a flow run id" ++ "."

/-- The diagnostic produced by the Size Guard, naming the record's actual
size and the configured limit (test: `is greater than the max size of 1`). -/
def oversizeMsg (actual limit : Nat) : String :=
  "ValueError: Log of size " ++ toString actual ++
    " is greater than the max size of " ++ toString limit

/-- Modelled from the spec: record preparation (spec §3 and §4.1).  An
emission without a flow-run id is rejected before a Record is constructed;
an emission whose serialized size exceeds the configured per-record maximum
is rejected by the Size Guard after construction, before queueing. -/
def prepareRecord (maxLogSize : Nat) (e : Emission) : Except String LogRec :=
  match e.flowRunId with
  | none => .error (flowRunWarning e.name)
  | some fid =>
      let r : LogRec :=
        { flowRunId := fid, taskRunId := e.taskRunId, name := e.name,
          level := e.level, message := e.message, size := e.size }
      if maxLogSize < r.size then .error (oversizeMsg r.size maxLogSize)
      else .ok r

/-- Modelled from the spec: the observable state of one Worker Loop
(spec §3, §4.5).  `queue` is the Pending Queue (FIFO), `pendingLogs` the
Retry Buffer (the code keeps it in the `_pending_logs` attribute).  The
counters record how often the background thread was started, the flush and
stop events were set, and the thread was joined — the quantities the test
suite observes through mocks. -/
structure WorkerState where
  queue : List LogRec
  pendingLogs : List LogRec
  started : Bool
  stopped : Bool
  flushSignal : Bool
  threadStarts : Nat
  flushSets : Nat
  stopSets : Nat
  joins : Nat
deriving DecidableEq

/-- A freshly constructed worker: nothing queued, not started, not stopped. -/
def WorkerState.initial : WorkerState :=
  { queue := [], pendingLogs := [], started := false, stopped := false,
    flushSignal := false, threadStarts := 0, flushSets := 0, stopSets := 0,
    joins := 0 }

/-- The illegal-state message for enqueueing into a stopped worker
(test: `Logs cannot be enqueued after .* is stopped`). -/
def enqueueStoppedMsg : String :=
  "Logs cannot be enqueued after the Orion log worker is stopped."

/-- The illegal-state message for starting a stopped worker
(test: `cannot be started after stopping`). -/
def startStoppedMsg : String :=
  "The log worker cannot be started after stopping."

/-- Modelled from the spec: `enqueue` (spec §4.2, §4.5) — fails with an
illegal-state error when the worker is stopped, otherwise pushes the record
onto the back of the Pending Queue.  It does not start the worker. -/
def WorkerState.enqueue (st : WorkerState) (r : LogRec) :
    Except String WorkerState :=
  if st.stopped then .error enqueueStoppedMsg
  else .ok { st with queue := st.queue ++ [r] }

/-- Modelled from the spec: `start` (spec §4.5) — fails on a stopped worker,
is a no-op on a running worker, and otherwise spawns exactly one background
execution unit. -/
def WorkerState.start (st : WorkerState) : Except String WorkerState :=
  if st.stopped then .error startStoppedMsg
  else if st.started then .ok st
  else .ok { st with started := true, threadStarts := st.threadStarts + 1 }

/-- Summed serialized size of a batch: the sum of the individually measured
record sizes (spec §4.3: not a remeasure of the concatenated structure). -/
def sumSize : List LogRec → Nat
  | [] => 0
  | r :: rs => r.size + sumSize rs

/-- Modelled from the spec: the Batcher's inner loop (spec §4.3).  `cur` is
the open batch (never empty), `curSize` its running summed size.  A record
that would push the running total over the limit `S` closes the open batch
and opens a new one; an oversized record therefore always travels alone. -/
def batchGo (S : Nat) (cur : List LogRec) (curSize : Nat) :
    List LogRec → List (List LogRec)
  | [] => [cur]
  | x :: xs =>
      if curSize + x.size ≤ S then batchGo S (cur ++ [x]) (curSize + x.size) xs
      else cur :: batchGo S [x] x.size xs

/-- Modelled from the spec: the Batcher (spec §4.3) — partitions the ordered
input sequence into size-bounded batches, preserving order. -/
def batcher (S : Nat) : List LogRec → List (List LogRec)
  | [] => []
  | x :: xs => batchGo S [x] x.size xs

/-- Whether a Sender outcome is a success. -/
def isOkSend : Except String Unit → Bool
  | .ok _ => true
  | .error _ => false

/-- The cause carried by a failed Sender outcome. -/
def errCause : Except String Unit → String
  | .ok _ => ""
  | .error c => c

/-- The fixed phrase of the shutdown-drain failure message. -/
def stopPhrase : String :=
  "log worker is stopping and these logs will not be sent"

/-- The fixed phrase of the normal-operation failure message. -/
def retryPhrase : String :=
  "will attempt to send these logs again"

/-- Modelled from the spec: the diagnostic written to the error stream when a
send fails (spec §4.4): the cause, then either the retry notice (normal
operation) or the shutdown notice (final drain). -/
def cycleErrMsg (cause : String) (exiting : Bool) : String :=
  "--- Orion logging error ---" ++ "\n" ++ cause ++ "\n" ++
    (if exiting then "The " ++ stopPhrase ++ "."
     else "The log worker " ++ retryPhrase ++ ".")

/-- Modelled from the spec: one send cycle of the Worker Loop (spec §4.4,
§4.5): drain the Retry Buffer followed by the Pending Queue, partition the
combined sequence with the Batcher, and hand each batch to the Sender exactly
once.  A batch the Sender accepts is delivered; a batch the Sender fails is
appended, in order, to the Retry Buffer — unless this is the final shutdown
drain (`exiting`), in which case failed records are dropped — and a
diagnostic is emitted per failed batch.  The flush signal is cleared at the
end of the cycle.  Returns the new state, the delivered batches in order, and
the diagnostics. -/
def runCycle (send : List LogRec → Except String Unit) (exiting : Bool)
    (S : Nat) (st : WorkerState) :
    WorkerState × List (List LogRec) × List String :=
  let batches := batcher S (st.pendingLogs ++ st.queue)
  let delivered := batches.filter (fun b => isOkSend (send b))
  let failed := batches.filter (fun b => ! isOkSend (send b))
  let retry := if exiting then [] else failed.flatten
  let diags := failed.map (fun b => cycleErrMsg (errCause (send b)) exiting)
  ({ st with queue := [], pendingLogs := retry, flushSignal := false },
    delivered, diags)

/-- Modelled from the spec: `stop` (spec §4.5) — a no-op unless the worker is
running; otherwise it sets the flush and stop signals, lets the background
unit perform one final drain-and-send pass with `exiting := true`, joins it,
and marks the worker permanently stopped. -/
def WorkerState.stop (st : WorkerState)
    (send : List LogRec → Except String Unit) (S : Nat) :
    WorkerState × List (List LogRec) × List String :=
  if st.started then
    let st1 := { st with flushSignal := true, flushSets := st.flushSets + 1, stopSets := st.stopSets + 1 }
    let out := runCycle send true S st1
    ({ out.1 with joins := out.1.joins + 1, started := false, stopped := true },
      out.2.1, out.2.2)
  else (st, [], [])

/-- Modelled from the spec: `flush` (spec §4.5) — raises the wake signal so
the next cycle runs immediately.  The test suite counts the event sets. -/
def WorkerState.flush (st : WorkerState) : WorkerState :=
  { st with flushSignal := true, flushSets := st.flushSets + 1 }

/-- Modelled from the spec: closing a handler flushes the shared worker but
never stops it, because the worker is a singleton other handler instances may
still be using. -/
def handlerClose (st : WorkerState) : WorkerState := st.flush

/-- Modelled from the spec: the handler's emit path (spec §4.5, §7) —
prepare the record (flow-run-id check, Size Guard) and enqueue it; any error
along the way, including the illegal-state error of a stopped worker, is
caught and reported on the diagnostic channel rather than raised into the
caller's code path.  Returns the new worker state and the diagnostics. -/
def handlerEmit (maxLogSize : Nat) (e : Emission) (st : WorkerState) :
    WorkerState × List String :=
  match prepareRecord maxLogSize e with
  | .error msg => (st, [msg])
  | .ok r =>
      match st.enqueue r with
      | .error msg => (st, [msg])
      | .ok st2 => (st2, [])

/-- Modelled from the spec: the Worker Registry (spec §4.6) — a process-wide
cache mapping a configuration identity to its Worker Loop instance.
Instances are represented by the identifier handed out at creation time;
`nextId` is the next fresh identifier. -/
structure Registry where
  entries : List (String × Nat)
  nextId : Nat
deriving DecidableEq

/-- The empty registry. -/
def Registry.empty : Registry := { entries := [], nextId := 0 }

/-- Modelled from the spec: `get_or_create` (spec §4.6) — return the cached
instance for an identity, creating and caching a fresh one on first lookup.
Entries are never evicted. -/
def Registry.getOrCreate (reg : Registry) (ident : String) : Registry × Nat :=
  match reg.entries.lookup ident with
  | some w => (reg, w)
  | none =>
      ({ entries := reg.entries ++ [(ident, reg.nextId)],
         nextId := reg.nextId + 1 }, reg.nextId)

/-- Well-formedness of a registry: every cached instance identifier is below
the next fresh identifier, and no instance is cached under two identities.
The empty registry is well formed and `getOrCreate` preserves this. -/
def Registry.WF (reg : Registry) : Prop :=
  (∀ p ∈ reg.entries, p.2 < reg.nextId) ∧
    (reg.entries.map Prod.snd).Nodup

/-- String containment, stated over the underlying character lists. -/
def strContains (s t : String) : Prop :=
  ∃ a b : List Char, s.data = a ++ t.data ++ b

/-! ### Helper lemmas -/

theorem str_data_append (a b : String) : (a ++ b).data = a.data ++ b.data :=
  rfl

theorem batchGo_flatten (S : Nat) (xs : List LogRec) :
    ∀ (cur : List LogRec) (n : Nat), (batchGo S cur n xs).flatten = cur ++ xs := by
  induction xs with
  | nil => intro cur n; simp [batchGo]
  | cons x xs ih =>
      intro cur n
      by_cases h : n + x.size ≤ S
      · simp [batchGo, h, ih]
      · simp [batchGo, h, ih]

theorem batcher_flatten (S : Nat) (xs : List LogRec) :
    (batcher S xs).flatten = xs := by
  cases xs with
  | nil => rfl
  | cons x xs => simp [batcher, batchGo_flatten]

theorem batchGo_ne_nil (S : Nat) (xs : List LogRec) (cur : List LogRec)
    (n : Nat) : batchGo S cur n xs ≠ [] := by
  cases xs with
  | nil => simp [batchGo]
  | cons x xs =>
      by_cases h : n + x.size ≤ S
      · simp only [batchGo, if_pos h]
        exact batchGo_ne_nil S xs (cur ++ [x]) (n + x.size)
      · simp [batchGo, h]

theorem batcher_ne_nil (S : Nat) (xs : List LogRec) (h : xs ≠ []) :
    batcher S xs ≠ [] := by
  cases xs with
  | nil => exact absurd rfl h
  | cons x xs => exact batchGo_ne_nil S xs [x] x.size

theorem sumSize_append (xs ys : List LogRec) :
    sumSize (xs ++ ys) = sumSize xs + sumSize ys := by
  induction xs with
  | nil => simp [sumSize]
  | cons x xs ih => simp [sumSize, ih]; omega

theorem batchGo_size_bound (S : Nat) (xs : List LogRec) :
    ∀ (cur : List LogRec) (n : Nat), n = sumSize cur →
      (n ≤ S ∨ cur.length = 1) →
      ∀ b ∈ batchGo S cur n xs, sumSize b ≤ S ∨ b.length = 1 := by
  induction xs with
  | nil =>
      intro cur n hn hcur b hb
      simp [batchGo] at hb
      subst hb
      omega
  | cons x xs ih =>
      intro cur n hn hcur b hb
      by_cases h : n + x.size ≤ S
      · rw [batchGo, if_pos h] at hb
        refine ih (cur ++ [x]) (n + x.size) ?_ (Or.inl h) b hb
        simp [sumSize_append, sumSize, hn]
      · rw [batchGo, if_neg h] at hb
        rcases List.mem_cons.mp hb with hb | hb
        · subst hb; omega
        · exact ih [x] x.size (by simp [sumSize]) (Or.inr rfl) b hb

theorem batcher_size_bound (S : Nat) (xs : List LogRec) :
    ∀ b ∈ batcher S xs, sumSize b ≤ S ∨ b.length = 1 := by
  cases xs with
  | nil => intro b hb; simp [batcher] at hb
  | cons x xs =>
      exact batchGo_size_bound S xs [x] x.size (by simp [sumSize]) (Or.inr rfl)

theorem runCycle_allFail (cause : String) (exiting : Bool) (S : Nat)
    (st : WorkerState) :
    runCycle (fun _ => .error cause) exiting S st =
      ({ st with queue := [], pendingLogs := if exiting then [] else st.pendingLogs ++ st.queue, flushSignal := false },
       [],
       (batcher S (st.pendingLogs ++ st.queue)).map
         (fun _ => cycleErrMsg cause exiting)) := by
  simp [runCycle, isOkSend, errCause, batcher_flatten]

theorem runCycle_allOk (exiting : Bool) (S : Nat) (st : WorkerState) :
    runCycle (fun _ => .ok ()) exiting S st =
      ({ st with queue := [], pendingLogs := [], flushSignal := false },
       batcher S (st.pendingLogs ++ st.queue), []) := by
  simp [runCycle, isOkSend]

theorem cycleErrMsg_contains_cause (cause : String) (exiting : Bool) :
    strContains (cycleErrMsg cause exiting) cause := by
  refine ⟨("--- Orion logging error ---" ++ "\n").data,
    ("\n" ++ (if exiting then "The " ++ stopPhrase ++ "."
      else "The log worker " ++ retryPhrase ++ ".")).data, ?_⟩
  simp [cycleErrMsg, str_data_append]

theorem cycleErrMsg_contains_retry (cause : String) :
    strContains (cycleErrMsg cause false) retryPhrase := by
  refine ⟨("--- Orion logging error ---" ++ "\n" ++ cause ++ "\n" ++
    "The log worker ").data, ".".data, ?_⟩
  simp [cycleErrMsg, str_data_append]

theorem cycleErrMsg_contains_stop (cause : String) :
    strContains (cycleErrMsg cause true) stopPhrase := by
  refine ⟨("--- Orion logging error ---" ++ "\n" ++ cause ++ "\n" ++
    "The ").data, ".".data, ?_⟩
  simp [cycleErrMsg, str_data_append]

theorem lookup_mem {i : String} {v : Nat} :
    ∀ (es : List (String × Nat)), es.lookup i = some v → (i, v) ∈ es := by
  intro es
  induction es with
  | nil => intro h; simp [List.lookup] at h
  | cons e es ih =>
      intro h
      rw [List.lookup] at h
      cases hik : (i == e.1) with
      | true =>
          rw [hik] at h
          simp only [Option.some.injEq] at h
          have h1 : i = e.1 := eq_of_beq hik
          refine List.mem_cons.mpr (Or.inl ?_)
          rw [h1, ← h]
      | false =>
          rw [hik] at h
          exact List.mem_cons_of_mem _ (ih h)

theorem lookup_append_some {k : String} {v : Nat}
    (fs : List (String × Nat)) :
    ∀ (es : List (String × Nat)), es.lookup k = some v →
      (es ++ fs).lookup k = some v := by
  intro es
  induction es with
  | nil => intro h; simp [List.lookup] at h
  | cons e es ih =>
      intro h
      rw [List.lookup] at h
      rw [List.cons_append, List.lookup]
      cases hik : (k == e.1) with
      | true => rw [hik] at h; exact h
      | false => rw [hik] at h; exact ih h

theorem lookup_append_none {k : String} (fs : List (String × Nat)) :
    ∀ (es : List (String × Nat)), es.lookup k = none →
      (es ++ fs).lookup k = fs.lookup k := by
  intro es
  induction es with
  | nil => intro _; simp
  | cons e es ih =>
      intro h
      rw [List.lookup] at h
      rw [List.cons_append, List.lookup]
      cases hik : (k == e.1) with
      | true => rw [hik] at h; simp at h
      | false => rw [hik] at h; exact ih h

theorem getOrCreate_WF (reg : Registry) (i : String) (hwf : reg.WF) :
    (reg.getOrCreate i).1.WF := by
  cases hl : reg.entries.lookup i with
  | some w => simpa [Registry.getOrCreate, hl] using hwf
  | none =>
      obtain ⟨hbound, hnd⟩ := hwf
      refine ⟨?_, ?_⟩
      · intro p hp
        simp only [Registry.getOrCreate, hl] at hp ⊢
        rcases List.mem_append.mp hp with hp | hp
        · exact Nat.lt_succ_of_lt (hbound p hp)
        · simp only [List.mem_singleton] at hp
          subst hp
          exact Nat.lt_succ_self _
      · simp only [Registry.getOrCreate, hl, List.map_append, List.map_cons,
          List.map_nil]
        rw [List.nodup_append]
        refine ⟨hnd, List.nodup_singleton _, ?_⟩
        intro w hw hw2
        simp only [List.mem_singleton] at hw2
        obtain ⟨p, hp, hp2⟩ := List.mem_map.mp hw
        have := hbound p hp
        omega

theorem lookup_append_self (i : String) (n : Nat) :
    ∀ (es : List (String × Nat)), es.lookup i = none →
      (es ++ [(i, n)]).lookup i = some n := by
  intro es
  induction es with
  | nil => intro _; simp [List.lookup]
  | cons e es ih =>
      intro h
      rw [List.lookup] at h
      rw [List.cons_append, List.lookup]
      cases hik : (i == e.1) with
      | true => rw [hik] at h; simp at h
      | false => rw [hik] at h; exact ih h

/-! ### Claims -/

/-- C1: when a send fails during normal operation, every record of the failed
batch is appended, in original order, to the Retry Buffer and removed from
the Pending Queue; on the next cycle the Retry Buffer contents precede any
newly drained queue contents in the outgoing sequence, so a record that
failed once is delivered by the next successful cycle ahead of fresher
records. -/
theorem c1_retry_precedence (S : Nat) (st : WorkerState) (cause : String)
    (fresh : List LogRec) :
    (runCycle (fun _ => .error cause) false S st).1.pendingLogs =
      st.pendingLogs ++ st.queue ∧
    (runCycle (fun _ => .error cause) false S st).1.queue = [] ∧
    (runCycle (fun _ => .ok ()) false S
        { (runCycle (fun _ => .error cause) false S st).1 with queue := fresh
        }).2.1.flatten = (st.pendingLogs ++ st.queue) ++ fresh ∧
    (runCycle (fun _ => .ok ()) false S
        { (runCycle (fun _ => .error cause) false S st).1 with queue := fresh
        }).1.pendingLogs = [] := by
  refine ⟨by simp [runCycle_allFail], by simp [runCycle_allFail], ?_, ?_⟩
  · rw [runCycle_allFail, runCycle_allOk]
    simp [batcher_flatten]
  · rw [runCycle_allFail, runCycle_allOk]

/-- C3: the Batcher partitions the ordered input into order-preserving
batches whose summed serialized size never exceeds the limit unless a batch
is a single oversized item; for three records each strictly larger than half
the limit, the Sender is invoked exactly three times, each with a
single-record batch. -/
theorem c3_batching (S : Nat) (xs : List LogRec) (r1 r2 r3 : LogRec)
    (st : WorkerState)
    (h1 : S < 2 * r1.size) (h2 : S < 2 * r2.size) (h3 : S < 2 * r3.size)
    (hq : st.queue = [r1, r2, r3]) (hp : st.pendingLogs = []) :
    ((batcher S xs).flatten = xs ∧
      ∀ b ∈ batcher S xs, sumSize b ≤ S ∨ b.length = 1) ∧
    (runCycle (fun _ => .ok ()) false S st).2.1 = [[r1], [r2], [r3]] := by
  refine ⟨⟨batcher_flatten S xs, batcher_size_bound S xs⟩, ?_⟩
  rw [runCycle_allOk]
  simp only [hq, hp, List.nil_append]
  rw [batcher, batchGo, if_neg (by omega), batchGo, if_neg (by omega),
    batchGo]

/-- Witness for C3 at limit 4 and three records of size 3. -/
theorem c3_batching_witness :
    ((batcher 4 []).flatten = [] ∧
      ∀ b ∈ batcher 4 [], sumSize b ≤ 4 ∨ b.length = 1) ∧
    (runCycle (fun _ => .ok ()) false 4
        { WorkerState.initial with
            queue := [⟨0, none, "t", 10, "a", 3⟩, ⟨0, none, "t", 10, "b", 3⟩,
              ⟨0, none, "t", 10, "c", 3⟩] }).2.1 =
      [[⟨0, none, "t", 10, "a", 3⟩], [⟨0, none, "t", 10, "b", 3⟩],
        [⟨0, none, "t", 10, "c", 3⟩]] :=
  c3_batching 4 [] _ _ _ _ (by decide) (by decide) (by decide) rfl rfl

/-- C4: a record whose serialized size exceeds the configured per-record
maximum is rejected before entering the Pending Queue (the worker state is
unchanged, so the Sender never observes it), exactly one diagnostic naming
the actual size and the configured limit is produced, and `handlerEmit` is a
total function, so no error reaches the caller. -/
theorem c4_size_guard (maxLogSize : Nat) (e : Emission) (fid : Nat)
    (st : WorkerState)
    (hf : e.flowRunId = some fid) (hs : maxLogSize < e.size) :
    (handlerEmit maxLogSize e st).1 = st ∧
    (handlerEmit maxLogSize e st).2 = [oversizeMsg e.size maxLogSize] ∧
    strContains (oversizeMsg e.size maxLogSize) (toString e.size) ∧
    strContains (oversizeMsg e.size maxLogSize) (toString maxLogSize) := by
  have hprep : prepareRecord maxLogSize e =
      .error (oversizeMsg e.size maxLogSize) := by
    rw [prepareRecord, hf]
    simp [hs]
  refine ⟨by simp [handlerEmit, hprep], by simp [handlerEmit, hprep], ?_, ?_⟩
  · exact ⟨"ValueError: Log of size ".data,
      (" is greater than the max size of " ++ toString maxLogSize).data,
      by simp [oversizeMsg, str_data_append, List.append_assoc]⟩
  · exact ⟨("ValueError: Log of size " ++ toString e.size ++
        " is greater than the max size of ").data, [],
      by simp [oversizeMsg, str_data_append, List.append_assoc]⟩

/-- Witness for C4: a record of size 5 against a limit of 1. -/
theorem c4_size_guard_witness :
    (handlerEmit 1 ⟨some 7, none, "t", 20, "hello", 5⟩ WorkerState.initial).1
        = WorkerState.initial ∧
    (handlerEmit 1 ⟨some 7, none, "t", 20, "hello", 5⟩
        WorkerState.initial).2 = [oversizeMsg 5 1] ∧
    strContains (oversizeMsg 5 1) (toString 5) ∧
    strContains (oversizeMsg 5 1) (toString 1) :=
  c4_size_guard 1 ⟨some 7, none, "t", 20, "hello", 5⟩ 7
    WorkerState.initial rfl (by decide)

/-- C8: an emission with a task-run id but no flow-run id is rejected before
a Record is constructed: the caller receives the warning about sending logs
without a flow run id, nothing is enqueued, and every Record that
`prepareRecord` ever constructs carries the emission's flow-run id, so no
record with a null flow-run id is ever persisted. -/
theorem c8_requires_flow_run_id (maxLogSize : Nat) (e : Emission) (tid : Nat)
    (st : WorkerState)
    (hf : e.flowRunId = none) (ht : e.taskRunId = some tid) :
    prepareRecord maxLogSize e = .error (flowRunWarning e.name) ∧
    strContains (flowRunWarning e.name) "without a flow run id" ∧
    (handlerEmit maxLogSize e st).1 = st ∧
    (handlerEmit maxLogSize e st).2 = [flowRunWarning e.name] ∧
    (∀ (e2 : Emission) (r : LogRec),
      prepareRecord maxLogSize e2 = .ok r → e2.flowRunId = some r.flowRunId)
    := by
  have hprep : prepareRecord maxLogSize e = .error (flowRunWarning e.name) :=
    by rw [prepareRecord, hf]
  refine ⟨hprep, ?_, by simp [handlerEmit, hprep],
    by simp [handlerEmit, hprep], ?_⟩
  · exact ⟨("Logger " ++ e.name ++
        " attempted to send logs to Orion ").data, ".".data,
      by simp [flowRunWarning, str_data_append, List.append_assoc]⟩
  · intro e2 r h
    cases he : e2.flowRunId with
    | none => rw [prepareRecord, he] at h; exact absurd h (by simp)
    | some fid2 =>
        rw [prepareRecord, he] at h
        by_cases hsz : maxLogSize < e2.size
        · simp [hsz] at h
        · simp only [if_neg hsz, Except.ok.injEq] at h
          subst h
          simp [he]

/-- Witness for C8: an emission with a task-run id and no flow-run id. -/
theorem c8_requires_flow_run_id_witness :
    prepareRecord 100 ⟨none, some 3, "t", 20, "hello", 5⟩ =
      .error (flowRunWarning "t") ∧
    strContains (flowRunWarning "t") "without a flow run id" ∧
    (handlerEmit 100 ⟨none, some 3, "t", 20, "hello", 5⟩
        WorkerState.initial).1 = WorkerState.initial ∧
    (handlerEmit 100 ⟨none, some 3, "t", 20, "hello", 5⟩
        WorkerState.initial).2 = [flowRunWarning "t"] ∧
    (∀ (e2 : Emission) (r : LogRec),
      prepareRecord 100 e2 = .ok r → e2.flowRunId = some r.flowRunId) :=
  c8_requires_flow_run_id 100 ⟨none, some 3, "t", 20, "hello", 5⟩ 3
    WorkerState.initial rfl rfl

/-- C2: every send failure produces a diagnostic containing the cause; during
normal operation it says the logs will be attempted again, during the final
shutdown drain it says the worker is stopping and the logs will not be sent,
and in the shutdown case the failed records are not re-buffered: the Retry
Buffer is empty after `stop()` returns. -/
theorem c2_failure_reporting (S : Nat) (st : WorkerState) (cause : String)
    (hne : st.pendingLogs ++ st.queue ≠ []) (hstart : st.started = true) :
    ((runCycle (fun _ => .error cause) false S st).2.2 ≠ [] ∧
      ∀ d ∈ (runCycle (fun _ => .error cause) false S st).2.2,
        strContains d cause ∧ strContains d retryPhrase) ∧
    ((st.stop (fun _ => .error cause) S).2.2 ≠ [] ∧
      ∀ d ∈ (st.stop (fun _ => .error cause) S).2.2,
        strContains d cause ∧ strContains d stopPhrase) ∧
    (st.stop (fun _ => .error cause) S).1.pendingLogs = [] := by
  have hb := batcher_ne_nil S (st.pendingLogs ++ st.queue) hne
  refine ⟨⟨?_, ?_⟩, ⟨?_, ?_⟩, ?_⟩
  · rw [runCycle_allFail]; simpa using hb
  · intro d hd
    rw [runCycle_allFail] at hd
    simp only [List.mem_map] at hd
    obtain ⟨b, _, hd⟩ := hd
    rw [← hd]
    exact ⟨cycleErrMsg_contains_cause cause false,
      cycleErrMsg_contains_retry cause⟩
  · simp only [WorkerState.stop, hstart, if_true, runCycle_allFail]
    simpa using hb
  · intro d hd
    simp only [WorkerState.stop, hstart, if_true, runCycle_allFail,
      List.mem_map] at hd
    obtain ⟨b, _, hd⟩ := hd
    rw [← hd]
    exact ⟨cycleErrMsg_contains_cause cause true,
      cycleErrMsg_contains_stop cause⟩
  · simp [WorkerState.stop, hstart, runCycle_allFail]

/-- Witness for C2: a started worker with one queued record and a failing
sender. -/
theorem c2_failure_reporting_witness :
    ((runCycle (fun _ => .error "ValueError: Test") false 10
        ⟨[⟨1, some 2, "n", 10, "hello", 5⟩], [], true, false, false, 1, 0, 0,
          0⟩).2.2 ≠ [] ∧
      ∀ d ∈ (runCycle (fun _ => .error "ValueError: Test") false 10
          ⟨[⟨1, some 2, "n", 10, "hello", 5⟩], [], true, false, false, 1, 0,
            0, 0⟩).2.2,
        strContains d "ValueError: Test" ∧ strContains d retryPhrase) ∧
    ((WorkerState.stop
        ⟨[⟨1, some 2, "n", 10, "hello", 5⟩], [], true, false, false, 1, 0, 0,
          0⟩ (fun _ => .error "ValueError: Test") 10).2.2 ≠ [] ∧
      ∀ d ∈ (WorkerState.stop
          ⟨[⟨1, some 2, "n", 10, "hello", 5⟩], [], true, false, false, 1, 0,
            0, 0⟩ (fun _ => .error "ValueError: Test") 10).2.2,
        strContains d "ValueError: Test" ∧ strContains d stopPhrase) ∧
    (WorkerState.stop
        ⟨[⟨1, some 2, "n", 10, "hello", 5⟩], [], true, false, false, 1, 0, 0,
          0⟩ (fun _ => .error "ValueError: Test") 10).1.pendingLogs = [] :=
  c2_failure_reporting 10 _ "ValueError: Test" (by decide) rfl

/-- C5: the stopped state is absorbing — enqueueing into a stopped worker
fails with the illegal-state message and the record is never delivered by any
cycle, and starting a stopped worker fails with the illegal-state message. -/
theorem c5_stopped_absorbing (st : WorkerState) (r : LogRec)
    (send : List LogRec → Except String Unit) (S : Nat)
    (h : st.stopped = true) (hr : r ∉ st.pendingLogs ++ st.queue) :
    st.enqueue r = .error enqueueStoppedMsg ∧
    st.start = .error startStoppedMsg ∧
    ∀ b ∈ (runCycle send false S st).2.1, r ∉ b := by
  refine ⟨by simp [WorkerState.enqueue, h], by simp [WorkerState.start, h],
    ?_⟩
  intro b hb hrb
  simp only [runCycle, List.mem_filter] at hb
  apply hr
  rw [← batcher_flatten S (st.pendingLogs ++ st.queue)]
  exact List.mem_flatten.mpr ⟨b, hb.1, hrb⟩

/-- Witness for C5: a stopped worker rejecting a fresh record. -/
theorem c5_stopped_absorbing_witness :
    WorkerState.enqueue ⟨[], [], false, true, false, 1, 1, 1, 1⟩
        ⟨1, none, "n", 10, "hello", 5⟩ = .error enqueueStoppedMsg ∧
    WorkerState.start ⟨[], [], false, true, false, 1, 1, 1, 1⟩ =
      .error startStoppedMsg ∧
    ∀ b ∈ (runCycle (fun _ => .ok ()) false 10
        ⟨[], [], false, true, false, 1, 1, 1, 1⟩).2.1,
      (⟨1, none, "n", 10, "hello", 5⟩ : LogRec) ∉ b :=
  c5_stopped_absorbing ⟨[], [], false, true, false, 1, 1, 1, 1⟩
    ⟨1, none, "n", 10, "hello", 5⟩ (fun _ => .ok ()) 10 rfl (by decide)

/-- C6: two lookups with equal configuration identity return the identical
worker instance without growing the registry; two lookups with unequal
identities on a well-formed registry return distinct instances, and each
lookup of a not-yet-cached identity grows the registry by exactly one entry
(from the empty registry: one entry after two equal lookups, two entries
after a second, distinct lookup). -/
theorem c6_registry_identity (reg : Registry) (i j : String) (hij : i ≠ j) :
    (reg.getOrCreate i).1.getOrCreate i =
      ((reg.getOrCreate i).1, (reg.getOrCreate i).2) ∧
    (reg.WF → ((reg.getOrCreate i).1.getOrCreate j).2 ≠
      (reg.getOrCreate i).2) ∧
    (reg.entries.lookup j = none →
      ((reg.getOrCreate i).1.getOrCreate j).1.entries.length =
        (reg.getOrCreate i).1.entries.length + 1) ∧
    ((Registry.empty.getOrCreate i).1.getOrCreate i).1.entries.length = 1 ∧
    ((Registry.empty.getOrCreate i).1.getOrCreate j).2 ≠
      (Registry.empty.getOrCreate i).2 ∧
    ((Registry.empty.getOrCreate i).1.getOrCreate j).1.entries.length = 2
    := by
  have hji : (j == i) = false := by
    simp only [beq_eq_false_iff_ne, ne_eq]
    exact fun hc => hij hc.symm
  refine ⟨?_, ?_, ?_, ?_, ?_, ?_⟩
  · cases hl : reg.entries.lookup i with
    | some w => simp [Registry.getOrCreate, hl]
    | none =>
        have h2 := lookup_append_self i reg.nextId reg.entries hl
        simp [Registry.getOrCreate, hl, h2]
  · intro hwf
    cases hli : reg.entries.lookup i with
    | some w1 =>
        cases hlj : reg.entries.lookup j with
        | some w2 =>
            simp only [Registry.getOrCreate, hli, hlj, ne_eq]
            intro hww
            have h1 := lookup_mem reg.entries hli
            have h2 := lookup_mem reg.entries hlj
            have := List.inj_on_of_nodup_map hwf.2 h1 h2 (by simp [hww])
            exact hij (by simpa using congrArg Prod.fst this)
        | none =>
            have hb := hwf.1 _ (lookup_mem reg.entries hli)
            simp only [Registry.getOrCreate, hli, hlj, ne_eq]
            omega
    | none =>
        cases hlj : reg.entries.lookup j with
        | some w2 =>
            have hsome := lookup_append_some [(i, reg.nextId)] reg.entries hlj
            have hb := hwf.1 _ (lookup_mem reg.entries hlj)
            simp only [Registry.getOrCreate, hli, hsome, ne_eq]
            omega
        | none =>
            have hnone : (reg.entries ++ [(i, reg.nextId)]).lookup j = none
              := by
              rw [lookup_append_none _ _ hlj]
              simp [List.lookup, hji]
            simp only [Registry.getOrCreate, hli, hnone, ne_eq]
            omega
  · intro hlj
    cases hli : reg.entries.lookup i with
    | some w1 => simp [Registry.getOrCreate, hli, hlj]
    | none =>
        have hnone : (reg.entries ++ [(i, reg.nextId)]).lookup j = none := by
          rw [lookup_append_none _ _ hlj]
          simp [List.lookup, hji]
        simp [Registry.getOrCreate, hli, hnone]
  · simp [Registry.getOrCreate, Registry.empty, List.lookup]
  · simp [Registry.getOrCreate, Registry.empty, List.lookup, hji]
  · simp [Registry.getOrCreate, Registry.empty, List.lookup, hji]

/-- Witness for C6 at two concrete distinct identities. -/
theorem c6_registry_identity_witness :
    (Registry.getOrCreate (Registry.getOrCreate Registry.empty "default").1
        "default" =
      ((Registry.getOrCreate Registry.empty "default").1,
        (Registry.getOrCreate Registry.empty "default").2)) ∧
    (Registry.empty.WF →
      ((Registry.empty.getOrCreate "default").1.getOrCreate "foo").2 ≠
        (Registry.empty.getOrCreate "default").2) ∧
    (Registry.empty.entries.lookup "foo" = none →
      ((Registry.empty.getOrCreate "default").1.getOrCreate
          "foo").1.entries.length =
        (Registry.empty.getOrCreate "default").1.entries.length + 1) ∧
    ((Registry.empty.getOrCreate "default").1.getOrCreate
        "default").1.entries.length = 1 ∧
    ((Registry.empty.getOrCreate "default").1.getOrCreate "foo").2 ≠
      (Registry.empty.getOrCreate "default").2 ∧
    ((Registry.empty.getOrCreate "default").1.getOrCreate
        "foo").1.entries.length = 2 :=
  c6_registry_identity Registry.empty "default" "foo" (by decide)

/-- C7: `start` and `stop` are idempotent — starting twice from a fresh
worker starts the background thread exactly once, and stopping twice after a
start sets the flush signal, sets the stop signal and joins the thread
exactly once, the second stop being a complete no-op. -/
theorem c7_start_stop_idempotent (send : List LogRec → Except String Unit)
    (S : Nat) (st : WorkerState)
    (h1 : st.started = false) (h2 : st.stopped = false)
    (ht : st.threadStarts = 0) (hfl : st.flushSets = 0)
    (hst : st.stopSets = 0) (hj : st.joins = 0) :
    ∃ st1, st.start = .ok st1 ∧ st1.start = .ok st1 ∧ st1.threadStarts = 1 ∧
      ((st1.stop send S).1.stop send S).1 = (st1.stop send S).1 ∧
      (st1.stop send S).1.flushSets = 1 ∧ (st1.stop send S).1.stopSets = 1 ∧
      (st1.stop send S).1.joins = 1 := by
  refine ⟨{ st with started := true, threadStarts := st.threadStarts + 1 },
    ?_, ?_, ?_, ?_, ?_, ?_, ?_⟩
  · simp [WorkerState.start, h1, h2]
  · simp [WorkerState.start, h2]
  · simp [ht]
  · simp [WorkerState.stop, runCycle]
  · simp [WorkerState.stop, runCycle, hfl]
  · simp [WorkerState.stop, runCycle, hst]
  · simp [WorkerState.stop, runCycle, hj]

/-- Witness for C7 from a fresh worker. -/
theorem c7_start_stop_idempotent_witness :
    ∃ st1, WorkerState.initial.start = .ok st1 ∧ st1.start = .ok st1 ∧
      st1.threadStarts = 1 ∧
      ((WorkerState.stop st1 (fun _ => .ok ()) 10).1.stop
          (fun _ => .ok ()) 10).1 =
        (WorkerState.stop st1 (fun _ => .ok ()) 10).1 ∧
      (WorkerState.stop st1 (fun _ => .ok ()) 10).1.flushSets = 1 ∧
      (WorkerState.stop st1 (fun _ => .ok ()) 10).1.stopSets = 1 ∧
      (WorkerState.stop st1 (fun _ => .ok ()) 10).1.joins = 1 :=
  c7_start_stop_idempotent (fun _ => .ok ()) 10 WorkerState.initial rfl rfl
    rfl rfl rfl rfl

/-- C9: closing a handler flushes the shared worker exactly once and never
stops it — the worker is not marked stopped, no stop signal is set and no
join happens — and a valid record emitted through the handler after the
close is still enqueued and delivered by the next successful cycle. -/
theorem c9_close_flushes_not_stops (st : WorkerState) (maxLogSize : Nat)
    (e : Emission) (fid : Nat)
    (hf : e.flowRunId = some fid) (hsz : e.size ≤ maxLogSize)
    (hstop : st.stopped = false) :
    (handlerClose st).flushSets = st.flushSets + 1 ∧
    (handlerClose st).stopped = st.stopped ∧
    (handlerClose st).stopSets = st.stopSets ∧
    (handlerClose st).joins = st.joins ∧
    (handlerClose st).queue = st.queue ∧
    ∃ r st2, prepareRecord maxLogSize e = .ok r ∧
      handlerEmit maxLogSize e (handlerClose st) = (st2, []) ∧
      st2.queue = st.queue ++ [r] ∧
      ∀ S, ∃ b ∈ (runCycle (fun _ => .ok ()) false S st2).2.1, r ∈ b := by
  have hprep : prepareRecord maxLogSize e =
      .ok ⟨fid, e.taskRunId, e.name, e.level, e.message, e.size⟩ := by
    rw [prepareRecord, hf]
    simp [Nat.not_lt.mpr hsz]
  refine ⟨rfl, rfl, rfl, rfl, rfl,
    ⟨fid, e.taskRunId, e.name, e.level, e.message, e.size⟩,
    { handlerClose st with queue := (handlerClose st).queue ++
        [⟨fid, e.taskRunId, e.name, e.level, e.message, e.size⟩] },
    hprep, ?_, rfl, ?_⟩
  · simp [handlerEmit, hprep, WorkerState.enqueue, handlerClose,
      WorkerState.flush, hstop]
  · intro S
    rw [runCycle_allOk]
    apply List.mem_flatten.mp
    rw [batcher_flatten]
    simp

/-- Witness for C9: a fresh worker, a valid record of size 5 and limit 10. -/
theorem c9_close_flushes_not_stops_witness :
    (handlerClose WorkerState.initial).flushSets =
      WorkerState.initial.flushSets + 1 ∧
    (handlerClose WorkerState.initial).stopped =
      WorkerState.initial.stopped ∧
    (handlerClose WorkerState.initial).stopSets =
      WorkerState.initial.stopSets ∧
    (handlerClose WorkerState.initial).joins = WorkerState.initial.joins ∧
    (handlerClose WorkerState.initial).queue = WorkerState.initial.queue ∧
    ∃ r st2,
      prepareRecord 10 ⟨some 1, none, "n", 20, "hello", 5⟩ = .ok r ∧
      handlerEmit 10 ⟨some 1, none, "n", 20, "hello", 5⟩
          (handlerClose WorkerState.initial) = (st2, []) ∧
      st2.queue = WorkerState.initial.queue ++ [r] ∧
      ∀ S, ∃ b ∈ (runCycle (fun _ => .ok ()) false S st2).2.1, r ∈ b :=
  c9_close_flushes_not_stops WorkerState.initial 10
    ⟨some 1, none, "n", 20, "hello", 5⟩ 1 rfl (by decide) rfl

/-- C10: stopping a worker that was never started is a complete no-op — the
state is returned unchanged, nothing is delivered or reported, the worker is
not marked stopped — and a later start followed by stop still performs the
full teardown (flush signal, stop signal, join) exactly once. -/
theorem c10_stop_before_start (send : List LogRec → Except String Unit)
    (S : Nat) (st : WorkerState)
    (h1 : st.started = false) (h2 : st.stopped = false)
    (hfl : st.flushSets = 0) (hst : st.stopSets = 0) (hj : st.joins = 0) :
    st.stop send S = (st, [], []) ∧
    (st.stop send S).1.stopped = false ∧
    ∃ st1, (st.stop send S).1.start = .ok st1 ∧
      (st1.stop send S).1.flushSets = 1 ∧
      (st1.stop send S).1.stopSets = 1 ∧
      (st1.stop send S).1.joins = 1 ∧
      (st1.stop send S).1.stopped = true := by
  have hnop : st.stop send S = (st, [], []) := by
    simp [WorkerState.stop, h1]
  refine ⟨hnop, by rw [hnop]; exact h2,
    ⟨{ st with started := true, threadStarts := st.threadStarts + 1 },
      ?_, ?_, ?_, ?_, ?_⟩⟩
  · rw [hnop]; simp [WorkerState.start, h1, h2]
  · simp [WorkerState.stop, runCycle, hfl]
  · simp [WorkerState.stop, runCycle, hst]
  · simp [WorkerState.stop, runCycle, hj]
  · simp [WorkerState.stop, runCycle]

/-- Witness for C10 from a fresh worker. -/
theorem c10_stop_before_start_witness :
    WorkerState.stop WorkerState.initial (fun _ => .ok ()) 10 =
      (WorkerState.initial, [], []) ∧
    (WorkerState.stop WorkerState.initial (fun _ => .ok ()) 10).1.stopped =
      false ∧
    ∃ st1, (WorkerState.stop WorkerState.initial
        (fun _ => .ok ()) 10).1.start = .ok st1 ∧
      (WorkerState.stop st1 (fun _ => .ok ()) 10).1.flushSets = 1 ∧
      (WorkerState.stop st1 (fun _ => .ok ()) 10).1.stopSets = 1 ∧
      (WorkerState.stop st1 (fun _ => .ok ()) 10).1.joins = 1 ∧
      (WorkerState.stop st1 (fun _ => .ok ()) 10).1.stopped = true :=
  c10_stop_before_start (fun _ => .ok ()) 10 WorkerState.initial rfl rfl rfl
    rfl rfl

end PrefectLogging
